import Mathlib

/-!
Verification development for the general-ledger analyzer
(`streamlit_app.py`).  The Python source is shallowly embedded: pandas
DataFrames become `Table` (a list of column names plus a list of rows of
`Cell`s), Python floats become `ℚ`, `None`/`NaN` becomes `Cell.null`, and
the in-place mutations of the source are modelled by explicit state
passing (each operation returns the table it leaves behind).
-/

namespace GLApp

/-- ASCII lower-casing of one character, the behaviour of Python
`str.lower` on the ASCII range (the data handled by the app). -/
def lowerChar (c : Char) : Char :=
  if 65 ≤ c.toNat && c.toNat ≤ 90 then Char.ofNat (c.toNat + 32) else c

/-- Embedding of Python `s.lower()`. -/
def lowerStr (s : String) : String :=
  String.mk (s.data.map lowerChar)

/-- Characters treated as whitespace by Python `str.strip()`. -/
def isSpaceChar (c : Char) : Bool :=
  c = ' ' || c = '\t' || c = '\n' || c = '\r' || c = '\x0b' || c = '\x0c'

/-- Embedding of Python `s.strip()`. -/
def stripStr (s : String) : String :=
  String.mk (((s.data.dropWhile isSpaceChar).reverse.dropWhile isSpaceChar).reverse)

/-- Embedding of Python `s.replace(" ", "")`: every space character
(U+0020 only, exactly as the source's literal) is removed. -/
def removeSpaces (s : String) : String :=
  String.mk (s.data.filter (fun c => !(c = ' ')))

/-- Embedding of `s.replace(",", "").replace(" ", "")` from the numeric
cleaning chain. -/
def removeCommasSpaces (s : String) : String :=
  String.mk (s.data.filter (fun c => !(c = ',') && !(c = ' ')))

/-- Embedding of the Python substring test `needle in hay`. -/
def strContains (hay needle : String) : Bool :=
  hay.data.tails.any (fun t => needle.data.isPrefixOf t)

/-- A raw cell of the tabular data: missing (`NaN`/`None`), text, or a
number (Python floats are embedded as rationals). -/
inductive Cell where
  | null
  | str (s : String)
  | num (q : ℚ)
deriving DecidableEq, Repr

/-- Embedding of Python `str(x)` on a cell (`str(nan) = "nan"`; a numeric
cell rendered and re-parsed as a float is the same number, which is all
the analyzer relies on). -/
def cellStr : Cell → String
  | Cell.null => "nan"
  | Cell.str s => s
  | Cell.num q => toString q

/-- Numeric value of a list of ASCII digits. -/
def natOfDigits (cs : List Char) : Nat :=
  cs.foldl (fun n c => n * 10 + (c.toNat - 48)) 0

/-- Parse an unsigned decimal literal (`"12"`, `"12."`, `".5"`, `"12.5"`),
the fragment of Python `float()` the ledger data exercises. -/
def parseUnsigned (cs : List Char) : Option ℚ :=
  let ip := cs.takeWhile Char.isDigit
  let rest := cs.dropWhile Char.isDigit
  match rest with
  | [] => if ip.isEmpty then none else some ((natOfDigits ip : ℚ))
  | '.' :: rest2 =>
    let fp := rest2.takeWhile Char.isDigit
    let rest3 := rest2.dropWhile Char.isDigit
    if rest3.isEmpty && (!ip.isEmpty || !fp.isEmpty) then
      some ((natOfDigits ip : ℚ) + (natOfDigits fp : ℚ) / (10 ^ fp.length : ℚ))
    else none
  | _ => none

/-- Parse a signed decimal literal, the embedding of Python `float(s)` on
cleaned ledger amounts. -/
def parseRat (s : String) : Option ℚ :=
  match s.data with
  | [] => none
  | '-' :: cs => (parseUnsigned cs).map (fun q => -q)
  | '+' :: cs => parseUnsigned cs
  | cs => parseUnsigned cs

/-- Result of cleaning one numeric cell: a missing value (`NaN`), a
parsed number, or a parse failure (the `astype(float)` exception). -/
inductive CleanVal where
  | nan
  | val (q : ℚ)
  | err
deriving DecidableEq, Repr

/-- Embedding of the numeric cleaning chain
`astype(str).str.replace(",","").str.replace(" ","").replace("","0").astype(float)`
applied to one cell.  A null cell renders as `"nan"` and parses to `NaN`;
the empty string becomes `"0"`. -/
def cleanCell : Cell → CleanVal
  | Cell.null => CleanVal.nan
  | Cell.num q => CleanVal.val q
  | Cell.str s =>
    let t := removeCommasSpaces s
    if t = "" then CleanVal.val 0
    else if lowerStr t = "nan" then CleanVal.nan
    else
      match parseRat t with
      | some q => CleanVal.val q
      | none => CleanVal.err

/-- The value a cleaned cell contributes after `fillna(0)`. -/
def numToQ : Cell → ℚ
  | Cell.num q => q
  | _ => 0

/-- The cell a `CleanVal` is stored back as (`NaN` stays missing). -/
def cleanedCell : CleanVal → Cell
  | CleanVal.nan => Cell.null
  | CleanVal.val q => Cell.num q
  | CleanVal.err => Cell.null

/-- Embedding of `fillna(0)` on one cell. -/
def fillCell : Cell → Cell
  | Cell.null => Cell.num 0
  | c => c

/-- The category string stored in an `account_category` cell. -/
def cellCatStr : Cell → String
  | Cell.str s => s
  | _ => ""

/-- A pandas DataFrame: ordered column names and rows of cells. -/
structure Table where
  cols : List String
  rows : List (List Cell)
deriving DecidableEq, Repr

/-- Index of the first occurrence of a label in a list of labels. -/
def idxOf (c : String) : List String → Option Nat
  | [] => none
  | x :: xs => if x == c then some 0 else (idxOf c xs).map (fun i => i + 1)

/-- Index of a column name (first occurrence, as pandas label lookup). -/
def Table.colIdx (t : Table) (c : String) : Option Nat :=
  idxOf c t.cols

/-- Column access `df[c]`: the cell of each row at the column's index
(missing cells of a short row read as null, as pandas pads with NaN). -/
def Table.getCol (t : Table) (c : String) : List Cell :=
  match t.colIdx c with
  | none => []
  | some i => t.rows.map (fun r => r.getD i Cell.null)

/-- Pad (or truncate) a row with nulls to exactly the column count
(pandas frames are rectangular). -/
def padTo (r : List Cell) (n : Nat) : List Cell :=
  r.take n ++ List.replicate (n - r.length) Cell.null

/-- Column assignment `df[c] = vals`: overwrite an existing column in
place, or append a new one. -/
def Table.setCol (t : Table) (c : String) (vals : List Cell) : Table :=
  match t.colIdx c with
  | some i =>
    { t with rows := (t.rows.zip vals).map (fun p => (padTo p.1 t.cols.length).set i p.2) }
  | none =>
    { cols := t.cols ++ [c], rows := (t.rows.zip vals).map (fun p => padTo p.1 t.cols.length ++ [p.2]) }

/-- Embedding of `df[c] = df[c].fillna(0)`. -/
def Table.fillnaCol (t : Table) (c : String) : Table :=
  t.setCol c ((t.getCol c).map fillCell)

/-- One entry of the attribute catalog `REQUIRED_ATTRIBUTES`. -/
structure AttrSpec where
  mandatory : Bool
  possible_names : List String
deriving DecidableEq, Repr

/-- The attribute catalog, transcribed from the `REQUIRED_ATTRIBUTES`
dict of the source (iteration order preserved). -/
def REQUIRED_ATTRIBUTES : List (String × AttrSpec) := [
  ("posted_dt", ⟨false,
    ["posted_dt", "posted_date", "posting_date", "gl_date", "entry_date",
     "transaction_date", "journal_date", "posting_dt", "value_date", "period_date"]⟩),
  ("doc_dt", ⟨false,
    ["doc_dt", "document_date", "doc_date", "invoice_date", "bill_date",
     "reference_date", "voucher_date"]⟩),
  ("doc", ⟨false,
    ["doc", "document_no", "document_number", "voucher_no", "journal_no",
     "reference_no", "ref_no", "entry_no", "transaction_id", "batch_no"]⟩),
  ("memo_description", ⟨false,
    ["memo_description", "description", "memo", "narration", "remarks",
     "line_description", "comments", "details", "gl_description"]⟩),
  ("department_name", ⟨false,
    ["department_name", "department", "cost_center", "costcentre",
     "division", "business_unit", "unit", "team", "function"]⟩),
  ("supplier_name", ⟨false,
    ["supplier_name", "supplier", "vendor_name", "vendor", "partner",
     "payee", "creditor", "beneficiary"]⟩),
  ("item_name", ⟨false,
    ["item_name", "item", "product", "product_name", "sku",
     "material", "material_name", "asset_name"]⟩),
  ("customer_name", ⟨false,
    ["customer_name", "customer", "client", "buyer", "account_name",
     "receiver", "payer"]⟩),
  ("jnl", ⟨false,
    ["jnl", "journal_type", "entry_type", "transaction_type",
     "record_type", "posting_type", "gl_type"]⟩),
  ("curr", ⟨false,
    ["curr", "currency", "currency_code", "fx_currency", "transaction_currency"]⟩),
  ("txn_amt", ⟨false,
    ["txn_amt", "transaction_amount", "amount", "value", "net_amount",
     "amount_lcy", "amount_gbp", "amount_usd", "amount_inr"]⟩),
  ("debit_gbp", ⟨false,
    ["debit_gbp", "debit", "dr", "debit_amount", "debits",
     "debit_value", "debit_in_gbp", "debit_local", "debit_usd", "debit_($)"]⟩),
  ("credit_gbp", ⟨false,
    ["credit_gbp", "credit", "cr", "credit_amount", "credits",
     "credit_value", "credit_in_gbp", "credit_local", "credit_usd", "credit_($)"]⟩),
  ("balance_gbp", ⟨false,
    ["balance_gbp", "balance", "closing_balance", "running_balance",
     "net_balance", "ending_balance", "account_balance"]⟩)]

/-- The fixed header-rewrite aliases (`CUSTOM_MAPPING` in the source). -/
def CUSTOM_MAPPING : List (String × String) := [
  ("memo/description", "memo_description"),
  ("debit_(gbp)", "debit_gbp"),
  ("credit_(gbp)", "credit_gbp"),
  ("balance_(gbp)", "balance_gbp")]

/-- The effect of `df.rename(columns=CUSTOM_MAPPING)` on one label. -/
def renameCol (c : String) : String :=
  (CUSTOM_MAPPING.lookup c).getD c

/-- The renamed table: what `df.rename(columns=CUSTOM_MAPPING, inplace=True)`
leaves behind. -/
def renameTable (t : Table) : Table :=
  { t with cols := t.cols.map renameCol }

/-- The lower-cased, stripped column names the resolver matches against
(`df_columns` in the source). -/
def dfColumnsOf (t : Table) : List String :=
  (renameTable t).cols.map (fun c => stripStr (lowerStr c))

/-- The synonym scan: first entry of `possible_names` whose lower-casing
is among the columns. -/
def firstAlt (df_columns : List String) : List String → Option String
  | [] => none
  | alt :: rest =>
    if lowerStr alt ∈ df_columns then some (lowerStr alt)
    else firstAlt df_columns rest

/-- Resolution of a single attribute: direct match, then user mapping,
then synonyms — the body of the `for attr, props` loop. -/
def resolveAttr (df_columns : List String) (user_mapping : Option (List (String × String)))
    (attr : String) (props : AttrSpec) : Option String :=
  if attr ∈ df_columns then some attr
  else
    match user_mapping with
    | some um =>
      match um.lookup attr with
      | some c =>
        if lowerStr c ∈ df_columns then some (lowerStr c)
        else firstAlt df_columns props.possible_names
      | none => firstAlt df_columns props.possible_names
    | none => firstAlt df_columns props.possible_names

/-- The resolver loop over the catalog, accumulating
`(col_mapping, missing, present)` in catalog order. -/
def resolveLoop (df_columns : List String) (um : Option (List (String × String))) :
    List (String × AttrSpec) → List (String × String) × List String × List String
  | [] => ([], [], [])
  | (attr, props) :: rest =>
    let t := resolveLoop df_columns um rest
    match resolveAttr df_columns um attr props with
    | some found => ((attr, found) :: t.1, t.2.1, attr :: t.2.2)
    | none => (t.1, attr :: t.2.1, t.2.2)

/-- Embedding of `validate_and_map_attributes(df, user_mapping)`.  The
first component is the table the call leaves behind (the source renames
the caller's DataFrame in place); the second is
`(col_mapping, missing, present)`. -/
def validate_and_map_attributes (df : Table) (user_mapping : Option (List (String × String))) :
    Table × (List (String × String) × List String × List String) :=
  (renameTable df, resolveLoop (dfColumnsOf df) user_mapping REQUIRED_ATTRIBUTES)

/-- The account-classification keyword table (`account_mapping`). -/
def account_mapping : List (String × List String) := [
  ("Revenue", ["sales", "sales return"]),
  ("COGS", ["cost of sales"]),
  ("OPEX", ["staff costs", "bad debt expense", "commissions", "conferences",
            "advertisements", "travel", "entertainment", "office supplies",
            "professional services", "telephone", "utilities", "other expenses",
            "rent", "vehicles", "equipment", "furniture and fixtures"]),
  ("Other Income", ["interest income", "dividend income", "gain/loss on sales of asset",
                    "exchange gain"]),
  ("Other Expense", ["interest expense", "amortization of intangible assets",
                     "depreciation", "exchange loss", "taxation", "adjusting"])]

/-- The ordered first-match scan of `classify_account`. -/
def classifyLoop (name : String) : List (String × List String) → String
  | [] => "Unclassified"
  | (category, keywords) :: rest =>
    if keywords.any (fun k => strContains name k) then category
    else classifyLoop name rest

/-- Embedding of `classify_account`: null input is Unclassified,
otherwise the value is stringified, lower-cased and spaces removed, and
the keyword table is scanned in order. -/
def classify_account (account_name : Cell) : String :=
  match account_name with
  | Cell.null => "Unclassified"
  | c => classifyLoop (removeSpaces (lowerStr (cellStr c))) account_mapping

/-- The classifier as the amended spec sentence describes it: null is
Unclassified; otherwise the text is lower-cased and its space characters
(U+0020 only — not other whitespace) removed, and the first category in
the fixed order whose keyword list contains a substring of the
normalized text wins, defaulting to Unclassified. -/
def classifySpecAmended (account_name : Cell) : String :=
  match account_name with
  | Cell.null => "Unclassified"
  | c =>
    let name := removeSpaces (lowerStr (cellStr c))
    ((account_mapping.find? (fun p => p.2.any (fun k => strContains name k))).map
      Prod.fst).getD "Unclassified"

/-- The header detection vocabulary (`header_keywords`). -/
def header_keywords : List String := [
  "debit", "credit", "amount", "balance", "debit_amount", "credit_amount",
  "net_amount", "total", "transaction_amount", "value", "dr", "cr",
  "debit_gbp", "credit_gbp", "amount_gbp",
  "gl_date", "posted_date", "posting_date", "transaction_date", "doc_date",
  "journal_date", "date", "entry_date", "value_date", "fiscal_period",
  "period", "fiscal_year", "year", "month",
  "gl_account", "account", "account_number", "account_no", "account_name",
  "main_account", "ledger_account", "account_code", "coa_code", "coa_name",
  "chart_of_account",
  "doc_no", "document_no", "document_number", "voucher_no", "journal_id",
  "journal_no", "reference", "reference_no", "ref_no", "batch_no",
  "entry_id", "transaction_id",
  "description", "memo", "memo_description", "narration", "remarks",
  "comments", "details", "line_description", "transaction_description",
  "department", "department_name", "cost_center", "costcentre", "division",
  "business_unit", "unit", "entity", "company", "company_name", "location",
  "region", "branch",
  "vendor", "vendor_name", "supplier", "supplier_name", "customer",
  "customer_name", "employee", "employee_name", "partner", "client",
  "product", "product_name", "item", "item_name", "project", "project_name",
  "job", "job_name", "work_order", "work_order_no",
  "transaction_type", "transaction_category", "entry_type", "journal_type",
  "posting_type", "record_type", "gl_type", "account_type", "source",
  "source_system", "module",
  "currency", "currency_code", "fx_rate", "exchange_rate", "status", "flag",
  "approved_by", "created_by", "updated_by", "timestamp"]

/-- The joined, lower-cased text of one raw row
(`" ".join(str(x).lower() for x in row if pd.notna(x))`). -/
def rowStr (row : List Cell) : String :=
  String.intercalate " "
    (row.filterMap (fun c =>
      match c with
      | Cell.null => none
      | c => some (lowerStr (cellStr c))))

/-- Number of vocabulary terms occurring in a row's joined text. -/
def rowMatchCount (row : List Cell) : Nat :=
  (header_keywords.filter (fun kw => strContains (rowStr row) kw)).length

/-- Top-to-bottom scan for the first row satisfying a predicate,
returning its index. -/
def headerScan (p : List Cell → Bool) : List (List Cell) → Option Nat
  | [] => none
  | r :: rs => if p r then some 0 else (headerScan p rs).map (fun i => i + 1)

/-- Embedding of the header-row detection loop: the first row with at
least 3 vocabulary matches; `none` models the header-not-found error
path (no defaulting to row 0). -/
def header_row_idx (grid : List (List Cell)) : Option Nat :=
  headerScan (fun r => decide (3 ≤ rowMatchCount r)) grid

/-- `possible_account_cols` of `analyze_gl`. -/
def possible_account_cols : List String :=
  ["account_name", "account", "gl_account", "account_code",
   "description", "memo_description", "account_key", "details"]

/-- `possible_debit_cols` of `analyze_gl`. -/
def possible_debit_cols : List String :=
  ["debit_gbp", "debit", "dr", "debit_amount", "debits",
   "debit_value", "debit_in_gbp", "debit_local", "debit_usd", "debit_($)"]

/-- `possible_credit_cols` of `analyze_gl`. -/
def possible_credit_cols : List String :=
  ["credit_gbp", "credit", "cr", "credit_amount", "credits",
   "credit_value", "credit_in_gbp", "credit_local", "credit_usd", "credit_($)"]

/-- `possible_amount_cols` of `analyze_gl`. -/
def possible_amount_cols : List String :=
  ["txn_amt", "transaction_amount", "amount", "value", "net_amount"]

/-- `next((c for c in cands if c in df.columns), None)`. -/
def firstPresent (t : Table) (cands : List String) : Option String :=
  cands.find? (fun c => t.cols.contains c)

/-- Clean one detected numeric column in place; `none` is the uncaught
`astype(float)` exception on a malformed value. -/
def cleanColumnsStep (t : Table) (c : Option String) : Option Table :=
  match c with
  | none => some t
  | some col =>
    if t.cols.contains col then
      if ((t.getCol col).map cleanCell).contains CleanVal.err then none
      else some (t.setCol col (((t.getCol col).map cleanCell).map cleanedCell))
    else some t

/-- The cleaning loop `for col in [debit_col, credit_col, amount_col]`. -/
def cleanColumns (t : Table) : List (Option String) → Option Table
  | [] => some t
  | c :: rest =>
    match cleanColumnsStep t c with
    | none => none
    | some t2 => cleanColumns t2 rest

/-- The per-row net amounts: `debit - credit` when both columns were
identified, else the single amount column, else `none` (the
"could not find debit/credit or amount columns" error). -/
def netAmounts (t : Table) : Option String → Option String → Option String → Option (List ℚ)
  | some d, some c, _ =>
    some (List.zipWith (fun x y => numToQ x - numToQ y) (t.getCol d) (t.getCol c))
  | _, _, some a => some ((t.getCol a).map numToQ)
  | _, _, none => none

/-- Stable insertion into a sorted list. -/
def insertSorted (le : α → α → Bool) (x : α) : List α → List α
  | [] => [x]
  | y :: ys => if le x y then x :: y :: ys else y :: insertSorted le x ys

/-- Stable insertion sort (the stable sorts pandas applies to group keys
and to `sort_values`). -/
def insSort (le : α → α → Bool) : List α → List α
  | [] => []
  | x :: xs => insertSorted le x (insSort le xs)

/-- Distinct group keys in the sorted order pandas `groupby` uses. -/
def sortedKeys (cats : List String) : List String :=
  insSort (fun a b => decide (a ≤ b)) cats.dedup

/-- Sum of the second components of the pairs whose first component is
`cat` (one groupby aggregate). -/
def catNetSum (pairs : List (String × ℚ)) (cat : String) : ℚ :=
  ((pairs.filter (fun p => p.1 == cat)).map Prod.snd).sum

/-- The KPI mapping computed from (category, net_amount) pairs, with the
source's fixed formulas. -/
def mkKpis (pairs : List (String × ℚ)) : List (String × ℚ) :=
  let revenue := catNetSum pairs "Revenue"
  let cogs := catNetSum pairs "COGS"
  let opex := catNetSum pairs "OPEX"
  let other_income := catNetSum pairs "Other Income"
  let other_expense := catNetSum pairs "Other Expense"
  let gross_profit := revenue - cogs
  let ebitda := gross_profit - opex
  let net_profit := ebitda + other_income - other_expense
  [("Revenue", revenue), ("COGS", cogs), ("OPEX", opex),
   ("Gross Profit", gross_profit), ("EBITDA", ebitda),
   ("Other Income", other_income), ("Other Expense", other_expense),
   ("Net Profit", net_profit)]

/-- `df.groupby("account_category")["net_amount"].sum()` followed by
`sort_values(ascending=False)`. -/
def mkSummary (pairs : List (String × ℚ)) : List (String × ℚ) :=
  let grouped := (sortedKeys (pairs.map Prod.fst)).map (fun k => (k, catNetSum pairs k))
  insSort (fun a b => decide (b.2 ≤ a.2)) grouped

/-- The trial balance: per-category debit/credit totals and balance, or
per-category amount totals when only an amount column exists. -/
inductive TrialBalance where
  | debitCredit (rows : List (String × ℚ × ℚ × ℚ))
  | amountOnly (rows : List (String × ℚ × ℚ))
deriving DecidableEq, Repr

/-- The data a fully successful `analyze_gl` call hands back: the table
it leaves behind plus the KPI mapping, category summary and trial
balance. -/
structure AnalyzeOk where
  table : Table
  kpis : List (String × ℚ)
  summary : List (String × ℚ)
  tb : TrialBalance
deriving DecidableEq, Repr

/-- The possible outcomes of `analyze_gl`: the mandatory-missing early
return (`df, {}, None`), the missing-amount-columns early return, an
uncaught exception (malformed numeric value, or `df[None]` when no
account column exists), the dead trial-balance error branch, and
success. -/
inductive AnalysisResult where
  | mandatoryStop (t : Table)
  | noAmountCols (t : Table)
  | exn
  | okNoTB (t : Table) (kpis : List (String × ℚ)) (summary : List (String × ℚ))
  | ok (r : AnalyzeOk)
deriving DecidableEq, Repr

/-- Embedding of `if col and col in df.columns: df[col] = df[col].fillna(0)`. -/
def optFill (t : Table) (c : Option String) : Table :=
  match c with
  | some d => if t.cols.contains d then t.fillnaCol d else t
  | none => t

/-- Everything after the net-amount column is written: classification,
KPIs, summary, trial-balance `fillna` and aggregation. -/
def buildResults (df2 : Table) (account_col : String)
    (debit_col credit_col amount_col : Option String) (nets : List ℚ) : AnalysisResult :=
  let cats := (df2.getCol account_col).map classify_account
  let df3 := df2.setCol "account_category" (cats.map Cell.str)
  let pairs := cats.zip nets
  let kpis := mkKpis pairs
  let summary := mkSummary pairs
  let df4 := optFill df3 debit_col
  let df5 := optFill df4 credit_col
  match debit_col, credit_col with
  | some d, some c =>
    let dvals := (df5.getCol d).map numToQ
    let cvals := (df5.getCol c).map numToQ
    let tb := (sortedKeys cats).map (fun k =>
      let dsum := catNetSum (cats.zip dvals) k
      let csum := catNetSum (cats.zip cvals) k
      (k, dsum, csum, dsum - csum))
    AnalysisResult.ok ⟨df5, kpis, summary, TrialBalance.debitCredit tb⟩
  | _, _ =>
    match amount_col with
    | some a =>
      if df5.cols.contains a then
        let df6 := df5.fillnaCol a
        let avals := (df6.getCol a).map numToQ
        let tb := (sortedKeys cats).map (fun k =>
          let s := catNetSum (cats.zip avals) k
          (k, s, s))
        AnalysisResult.ok ⟨df6, kpis, summary, TrialBalance.amountOnly tb⟩
      else AnalysisResult.okNoTB df5 kpis summary
    | none => AnalysisResult.okNoTB df5 kpis summary

/-- The numeric pipeline of `analyze_gl` after the mandatory-attribute
check: column detection, cleaning, net amount, then `buildResults`. -/
def analyzeNumeric (df0 : Table) : AnalysisResult :=
  let account_col := firstPresent df0 possible_account_cols
  let debit_col := firstPresent df0 possible_debit_cols
  let credit_col := firstPresent df0 possible_credit_cols
  let amount_col := firstPresent df0 possible_amount_cols
  match cleanColumns df0 [debit_col, credit_col, amount_col] with
  | none => AnalysisResult.exn
  | some df1 =>
    match netAmounts df1 debit_col credit_col amount_col with
    | none => AnalysisResult.noAmountCols df1
    | some nets =>
      let df2 := df1.setCol "net_amount" (nets.map Cell.num)
      match account_col with
      | none => AnalysisResult.exn
      | some ac => buildResults df2 ac debit_col credit_col amount_col nets

/-- Whether an attribute is flagged mandatory in the catalog. -/
def mandFlag (m : String) : Bool :=
  ((REQUIRED_ATTRIBUTES.lookup m).map AttrSpec.mandatory).getD false

/-- The `mandatory_missing` list `analyze_gl` computes from the
resolution. -/
def mandatory_missing (df : Table) (um : Option (List (String × String))) : List String :=
  ((validate_and_map_attributes df um).2.2.1).filter mandFlag

/-- Embedding of `analyze_gl(df, user_mapping)` (the Streamlit widget
layer, which is presentation only, is outside the core). -/
def analyze_gl (df : Table) (um : Option (List (String × String))) : AnalysisResult :=
  let v := validate_and_map_attributes df um
  if mandatory_missing df um ≠ [] then AnalysisResult.mandatoryStop v.1
  else analyzeNumeric v.1

/-- The table a finished analysis leaves behind, when it returned one. -/
def okTableOf : AnalysisResult → Option Table
  | AnalysisResult.ok r => some r.table
  | _ => none

/-- The KPI mapping of an analysis outcome, when one was produced. -/
def kpisOf : AnalysisResult → Option (List (String × ℚ))
  | AnalysisResult.ok r => some r.kpis
  | AnalysisResult.okNoTB _ k _ => some k
  | _ => none

/-- The category summary of an analysis outcome, when one was produced. -/
def summaryOf : AnalysisResult → Option (List (String × ℚ))
  | AnalysisResult.ok r => some r.summary
  | AnalysisResult.okNoTB _ _ s => some s
  | _ => none

/-- Whether an analysis outcome is the mandatory-attribute stop. -/
def isMandatoryStop : AnalysisResult → Bool
  | AnalysisResult.mandatoryStop _ => true
  | _ => false

/-- The trial balance of an analysis outcome, when one was produced. -/
def tbOf : AnalysisResult → Option TrialBalance
  | AnalysisResult.ok r => some r.tb
  | _ => none

/-- The success payload of an analysis outcome (junk default otherwise). -/
def okRes : AnalysisResult → AnalyzeOk
  | AnalysisResult.ok r => r
  | _ => ⟨⟨[], []⟩, [], [], TrialBalance.amountOnly []⟩

/-- The (category, net_amount) pairs a finished table carries in its
`account_category` and `net_amount` columns. -/
def catPairsOf (t : Table) : List (String × ℚ) :=
  ((t.getCol "account_category").map cellCatStr).zip ((t.getCol "net_amount").map numToQ)

/-- Removal of every whitespace character, the normalization claim C2
attributes to the classifier. -/
def stripAllWhitespace (s : String) : String :=
  String.mk (s.data.filter (fun c => !(isSpaceChar c)))

/-- The classifier as claim C2 words it: all whitespace (not just
spaces) is stripped before keyword matching. -/
def classifyClaimC2 (account_name : Cell) : String :=
  match account_name with
  | Cell.null => "Unclassified"
  | c => classifyLoop (stripAllWhitespace (lowerStr (cellStr c))) account_mapping

/-- Columns `debit, debit_gbp`: both a direct and a synonym match for
the `debit_gbp` attribute exist. -/
def tblDirect : Table := ⟨["debit", "debit_gbp"], []⟩

/-- A single `debit` column: no direct match for `debit_gbp`. -/
def tblOverride : Table := ⟨["debit"], []⟩

/-- A ledger with an account and an amount column but nothing
resolvable to `credit_gbp`. -/
def tblAmountOnly : Table := ⟨["account", "amount"], [[Cell.str "Sales", Cell.num 100]]⟩

/-- A ledger whose only row is a sheet-subtotal line. -/
def tblTotalRow : Table :=
  ⟨["account", "debit", "credit"], [[Cell.str "TOTAL ASSETS", Cell.num 100, Cell.num 0]]⟩

/-- A two-row debit/credit ledger. -/
def tblLedger : Table :=
  ⟨["account", "debit", "credit"],
   [[Cell.str "Sales Revenue", Cell.num 0, Cell.num 1000],
    [Cell.str "Office Rent Expense", Cell.num 500, Cell.num 0]]⟩

/-- A table whose first column is renamed by `CUSTOM_MAPPING`. -/
def tblParen : Table := ⟨["debit_(gbp)", "credit"], [[Cell.num 1, Cell.num 2]]⟩

/-- A grid whose second row is the header row. -/
def gridHeader : List (List Cell) :=
  [[Cell.str "hello"],
   [Cell.str "Account", Cell.str "Debit", Cell.str "Credit", Cell.str "Date"]]

/-- A grid with no row reaching the vocabulary threshold. -/
def gridNoHeader : List (List Cell) := [[Cell.str "hello"], [Cell.str "world"]]

theorem idxOf_lt_length {c : String} {l : List String} {i : Nat}
    (h : idxOf c l = some i) : i < l.length := by
  induction l generalizing i with
  | nil => simp [idxOf] at h
  | cons x xs ih =>
    rw [idxOf] at h
    by_cases hx : x == c
    · simp [hx] at h
      simp [← h]
    · simp [hx] at h
      obtain ⟨j, hj, hji⟩ := h
      have := ih hj
      simp [← hji]
      omega

theorem idxOf_getElem? {c : String} {l : List String} {i : Nat}
    (h : idxOf c l = some i) : l[i]? = some c := by
  induction l generalizing i with
  | nil => simp [idxOf] at h
  | cons x xs ih =>
    rw [idxOf] at h
    by_cases hx : x == c
    · simp [hx] at h
      simp [← h, eq_of_beq hx]
    · simp [hx] at h
      obtain ⟨j, hj, hji⟩ := h
      simp [← hji, ih hj]

theorem idxOf_eq_none {c : String} {l : List String} :
    idxOf c l = none ↔ c ∉ l := by
  induction l with
  | nil => simp [idxOf]
  | cons x xs ih =>
    rw [idxOf]
    by_cases hx : x == c
    · simp [hx, eq_of_beq hx]
    · have hne : c ≠ x := by
        intro hcx
        simp [hcx] at hx
      simp [hx, ih, hne]

theorem idxOf_isSome_of_mem {c : String} {l : List String} (h : c ∈ l) :
    ∃ i, idxOf c l = some i := by
  cases hi : idxOf c l with
  | none => exact absurd h (idxOf_eq_none.mp hi)
  | some i => exact ⟨i, rfl⟩

theorem idxOf_append_ne {c c' : String} (h : c' ≠ c) (l : List String) :
    idxOf c' (l ++ [c]) = idxOf c' l := by
  induction l with
  | nil =>
    have hx : (c == c') = false := by
      simp
      exact fun hc => absurd hc.symm h
    simp [idxOf, hx]
  | cons x xs ih =>
    rw [List.cons_append, idxOf, idxOf, ih]

theorem idxOf_append_self {c : String} {l : List String} (h : c ∉ l) :
    idxOf c (l ++ [c]) = some l.length := by
  induction l with
  | nil => simp [idxOf]
  | cons x xs ih =>
    have hx : (x == c) = false := by
      simp
      intro hxc
      exact h (hxc ▸ List.mem_cons_self x xs)
    have hxs : c ∉ xs := fun hc => h (List.mem_cons_of_mem _ hc)
    rw [List.cons_append, idxOf]
    simp [hx, ih hxs]

theorem padTo_length (r : List Cell) (n : Nat) : (padTo r n).length = n := by
  simp [padTo]
  omega

theorem getD_padTo {r : List Cell} {n j : Nat} (hj : j < n) :
    (padTo r n).getD j Cell.null = r.getD j Cell.null := by
  rw [List.getD_eq_getElem?_getD, List.getD_eq_getElem?_getD, padTo, List.getElem?_append]
  by_cases hjr : j < r.length
  · have hlt : j < (List.take n r).length := by
      simp [List.length_take]
      omega
    rw [if_pos hlt, List.getElem?_take, if_pos hj]
  · have hge : ¬ j < (List.take n r).length := by
      simp [List.length_take]
      omega
    rw [if_neg hge, List.getElem?_replicate]
    have h1 : r[j]? = none := List.getElem?_eq_none (le_of_not_lt hjr)
    have h2 : j - (List.take n r).length < n - r.length := by
      simp [List.length_take]
      omega
    rw [if_pos h2, h1]
    rfl

theorem setCol_cols_of_mem {t : Table} {c : String} (h : c ∈ t.cols) (vs : List Cell) :
    (t.setCol c vs).cols = t.cols := by
  obtain ⟨i, hi⟩ := idxOf_isSome_of_mem h
  simp [Table.setCol, Table.colIdx, hi]

theorem setCol_cols_of_not_mem {t : Table} {c : String} (h : c ∉ t.cols) (vs : List Cell) :
    (t.setCol c vs).cols = t.cols ++ [c] := by
  have hi : idxOf c t.cols = none := idxOf_eq_none.mpr h
  simp [Table.setCol, Table.colIdx, hi]

theorem mem_setCol_self (t : Table) (c : String) (vs : List Cell) :
    c ∈ (t.setCol c vs).cols := by
  by_cases h : c ∈ t.cols
  · rw [setCol_cols_of_mem h]
    exact h
  · rw [setCol_cols_of_not_mem h]
    simp

theorem mem_setCol_of_mem {t : Table} {x : String} (h : x ∈ t.cols) (c : String) (vs : List Cell) :
    x ∈ (t.setCol c vs).cols := by
  by_cases hc : c ∈ t.cols
  · rw [setCol_cols_of_mem hc]
    exact h
  · rw [setCol_cols_of_not_mem hc]
    exact List.mem_append_left _ h

theorem setCol_rows_length {t : Table} {c : String} {vs : List Cell}
    (h : vs.length = t.rows.length) : (t.setCol c vs).rows.length = t.rows.length := by
  unfold Table.setCol
  cases hidx : t.colIdx c <;> simp [h]

theorem getCol_length {t : Table} {c : String} (h : c ∈ t.cols) :
    (t.getCol c).length = t.rows.length := by
  obtain ⟨i, hi⟩ := idxOf_isSome_of_mem h
  simp [Table.getCol, Table.colIdx, hi]

theorem getCol_setCol_self {t : Table} {c : String} {vs : List Cell}
    (hlen : vs.length = t.rows.length) : (t.setCol c vs).getCol c = vs := by
  cases hidx : idxOf c t.cols with
  | some i =>
    have hilt : i < t.cols.length := idxOf_lt_length hidx
    simp only [Table.setCol, Table.getCol, Table.colIdx, hidx, List.map_map]
    have hmap : ∀ p : List Cell × Cell,
        ((padTo p.1 t.cols.length).set i p.2).getD i Cell.null = p.2 := by
      intro p
      rw [List.getD_eq_getElem?_getD, List.getElem?_set_self]
      · rfl
      · rw [padTo_length]
        exact hilt
    simp only [Function.comp_def, hmap]
    have hle : vs.length ≤ t.rows.length := le_of_eq hlen
    exact List.map_snd_zip _ _ hle
  | none =>
    have hnm : c ∉ t.cols := idxOf_eq_none.mp hidx
    simp only [Table.setCol, Table.getCol, Table.colIdx, hidx, idxOf_append_self hnm,
      List.map_map]
    have hmap : ∀ p : List Cell × Cell,
        (padTo p.1 t.cols.length ++ [p.2]).getD t.cols.length Cell.null = p.2 := by
      intro p
      have h1 := List.getElem?_concat_length (padTo p.1 t.cols.length) p.2
      rw [padTo_length] at h1
      rw [List.getD_eq_getElem?_getD, h1]
      rfl
    simp only [Function.comp_def, hmap]
    exact List.map_snd_zip _ _ (le_of_eq hlen)

theorem getCol_setCol_ne {t : Table} {c c' : String} {vs : List Cell}
    (hne : c' ≠ c) (hlen : vs.length = t.rows.length) :
    (t.setCol c vs).getCol c' = t.getCol c' := by
  have hfst : (t.rows.zip vs).map Prod.fst = t.rows :=
    List.map_fst_zip _ _ (le_of_eq hlen.symm)
  cases hidx : idxOf c t.cols with
  | some i =>
    have hilt : i < t.cols.length := idxOf_lt_length hidx
    simp only [Table.setCol, Table.getCol, Table.colIdx, hidx]
    cases hidx' : idxOf c' t.cols with
    | none => rfl
    | some j =>
      have hij : i ≠ j := by
        intro hij'
        have h1 := idxOf_getElem? hidx
        have h2 := idxOf_getElem? hidx'
        rw [hij', h2] at h1
        exact hne (Option.some.inj h1)
      have hjlt : j < t.cols.length := idxOf_lt_length hidx'
      simp only [List.map_map]
      have hmap : ∀ p : List Cell × Cell,
          ((padTo p.1 t.cols.length).set i p.2).getD j Cell.null = p.1.getD j Cell.null := by
        intro p
        rw [List.getD_eq_getElem?_getD, List.getElem?_set_ne hij, ← List.getD_eq_getElem?_getD]
        exact getD_padTo hjlt
      simp only [Function.comp_def, hmap]
      have : (t.rows.zip vs).map (fun p => p.1.getD j Cell.null)
          = ((t.rows.zip vs).map Prod.fst).map (fun r => r.getD j Cell.null) := by
        rw [List.map_map]
        rfl
      rw [this, hfst]
  | none =>
    have hnm : c ∉ t.cols := idxOf_eq_none.mp hidx
    simp only [Table.setCol, Table.getCol, Table.colIdx, hidx, idxOf_append_ne hne]
    cases hidx' : idxOf c' t.cols with
    | none => rfl
    | some j =>
      have hjlt : j < t.cols.length := idxOf_lt_length hidx'
      simp only [List.map_map]
      have hmap : ∀ p : List Cell × Cell,
          (padTo p.1 t.cols.length ++ [p.2]).getD j Cell.null = p.1.getD j Cell.null := by
        intro p
        have hjp : j < (padTo p.1 t.cols.length).length := by
          rw [padTo_length]
          exact hjlt
        rw [List.getD_eq_getElem?_getD, List.getElem?_append, if_pos hjp,
          ← List.getD_eq_getElem?_getD]
        exact getD_padTo hjlt
      simp only [Function.comp_def, hmap]
      have : (t.rows.zip vs).map (fun p => p.1.getD j Cell.null)
          = ((t.rows.zip vs).map Prod.fst).map (fun r => r.getD j Cell.null) := by
        rw [List.map_map]
        rfl
      rw [this, hfst]

theorem perm_insertSorted {α : Type} (le : α → α → Bool) (x : α) (l : List α) :
    (insertSorted le x l).Perm (x :: l) := by
  induction l with
  | nil => simp [insertSorted]
  | cons y ys ih =>
    rw [insertSorted]
    cases h : le x y with
    | true => simp
    | false =>
      simp only [Bool.false_eq_true, if_false]
      exact (ih.cons y).trans (List.Perm.swap x y ys)

theorem perm_insSort {α : Type} (le : α → α → Bool) (l : List α) :
    (insSort le l).Perm l := by
  induction l with
  | nil => simp [insSort]
  | cons x xs ih =>
    rw [insSort]
    exact (perm_insertSorted le x (insSort le xs)).trans (ih.cons x)

theorem mem_sortedKeys {cats : List String} {a : String} :
    a ∈ sortedKeys cats ↔ a ∈ cats := by
  rw [sortedKeys]
  rw [(perm_insSort _ _).mem_iff, List.mem_dedup]

theorem nodup_sortedKeys (cats : List String) : (sortedKeys cats).Nodup := by
  rw [sortedKeys]
  exact ((perm_insSort _ _).nodup_iff).mpr (List.nodup_dedup cats)

theorem catNetSum_cons (p : String × ℚ) (ps : List (String × ℚ)) (k : String) :
    catNetSum (p :: ps) k = (if p.1 == k then p.2 else 0) + catNetSum ps k := by
  rw [catNetSum, catNetSum, List.filter_cons]
  cases h : p.1 == k with
  | true => simp
  | false => simp

theorem sum_indicator_of_not_mem {keys : List String} {a : String} (q : ℚ)
    (ha : a ∉ keys) :
    (keys.map (fun c => if a = c then q else 0)).sum = 0 := by
  induction keys with
  | nil => simp
  | cons k ks ih =>
    have h1 : a ≠ k := fun h => ha (h ▸ List.mem_cons_self k ks)
    have h2 : a ∉ ks := fun h => ha (List.mem_cons_of_mem _ h)
    simp [h1, ih h2]

theorem sum_indicator_of_mem {keys : List String} {a : String} (q : ℚ)
    (hnd : keys.Nodup) (ha : a ∈ keys) :
    (keys.map (fun c => if a = c then q else 0)).sum = q := by
  induction keys with
  | nil => simp at ha
  | cons k ks ih =>
    rcases List.mem_cons.mp ha with rfl | h
    · have hk : a ∉ ks := (List.nodup_cons.mp hnd).1
      simp [sum_indicator_of_not_mem q hk]
    · have h1 : a ≠ k := by
        rintro rfl
        exact (List.nodup_cons.mp hnd).1 h
      simp [h1, ih (List.nodup_cons.mp hnd).2 h]

theorem sum_catNetSum_groups {keys : List String} {pairs : List (String × ℚ)}
    (hnd : keys.Nodup) (hall : ∀ p ∈ pairs, p.1 ∈ keys) :
    (keys.map (fun k => catNetSum pairs k)).sum = (pairs.map Prod.snd).sum := by
  induction pairs with
  | nil => simp [catNetSum]
  | cons p ps ih =>
    simp only [catNetSum_cons, beq_iff_eq, List.sum_map_add]
    rw [ih (fun x hx => hall x (List.mem_cons_of_mem _ hx)),
      sum_indicator_of_mem p.2 hnd (hall p (List.mem_cons_self p ps))]
    simp

theorem mkSummary_sum (pairs : List (String × ℚ)) :
    ((mkSummary pairs).map Prod.snd).sum = (pairs.map Prod.snd).sum := by
  rw [mkSummary]
  rw [((perm_insSort (fun a b => decide (b.2 ≤ a.2)) _).map Prod.snd).sum_eq]
  rw [List.map_map]
  have h1 : (Prod.snd ∘ fun k => (k, catNetSum pairs k)) = fun k => catNetSum pairs k := rfl
  rw [h1]
  exact sum_catNetSum_groups (nodup_sortedKeys _)
    (fun p hp => mem_sortedKeys.mpr (List.mem_map_of_mem Prod.fst hp))

theorem resolveLoop_mem_iff (dfc : List String) (um : Option (List (String × String)))
    (cat : List (String × AttrSpec)) (a : String) :
    (a ∈ (resolveLoop dfc um cat).2.2 ∨ a ∈ (resolveLoop dfc um cat).2.1) ↔
      a ∈ cat.map Prod.fst := by
  induction cat with
  | nil => simp [resolveLoop]
  | cons hd rest ih =>
    obtain ⟨attr, props⟩ := hd
    rw [resolveLoop]
    cases h : resolveAttr dfc um attr props with
    | some f =>
      simp only [List.map_cons, List.mem_cons]
      rw [← ih]
      tauto
    | none =>
      simp only [List.map_cons, List.mem_cons]
      rw [← ih]
      tauto

theorem resolveLoop_present_eq (dfc : List String) (um : Option (List (String × String)))
    (cat : List (String × AttrSpec)) :
    (resolveLoop dfc um cat).2.2 = (resolveLoop dfc um cat).1.map Prod.fst := by
  induction cat with
  | nil => simp [resolveLoop]
  | cons hd rest ih =>
    obtain ⟨attr, props⟩ := hd
    rw [resolveLoop]
    cases h : resolveAttr dfc um attr props with
    | some f => simp [ih]
    | none => simp [ih]

theorem resolveLoop_disjoint {dfc : List String} {um : Option (List (String × String))}
    {cat : List (String × AttrSpec)} (hnd : (cat.map Prod.fst).Nodup) :
    ∀ a, a ∈ (resolveLoop dfc um cat).2.2 → a ∉ (resolveLoop dfc um cat).2.1 := by
  induction cat with
  | nil => simp [resolveLoop]
  | cons hd rest ih =>
    obtain ⟨attr, props⟩ := hd
    simp only [List.map_cons, List.nodup_cons] at hnd
    intro a ha hmiss
    rw [resolveLoop] at ha hmiss
    cases h : resolveAttr dfc um attr props with
    | some f =>
      rw [h] at ha hmiss
      rcases List.mem_cons.mp ha with rfl | ha2
      · have : a ∈ (rest.map Prod.fst) :=
          (resolveLoop_mem_iff dfc um rest a).mp (Or.inr hmiss)
        exact hnd.1 this
      · exact ih hnd.2 a ha2 hmiss
    | none =>
      rw [h] at ha hmiss
      rcases List.mem_cons.mp hmiss with rfl | hmiss2
      · have : a ∈ (rest.map Prod.fst) :=
          (resolveLoop_mem_iff dfc um rest a).mp (Or.inl ha)
        exact hnd.1 this
      · exact ih hnd.2 a ha hmiss2

theorem lookup_eq_none_of_not_mem_keys {β : Type} {m : List (String × β)} {a : String}
    (h : a ∉ m.map Prod.fst) : m.lookup a = none := by
  induction m with
  | nil => rfl
  | cons kv rest ih =>
    obtain ⟨k, v⟩ := kv
    have h1 : a ≠ k := by
      rintro rfl
      exact h (List.mem_cons_self _ _)
    have h2 : a ∉ rest.map Prod.fst := fun hm => h (List.mem_cons_of_mem _ hm)
    have hba : (a == k) = false := beq_eq_false_iff_ne.mpr h1
    simp [List.lookup, hba, ih h2]

theorem resolveLoop_lookup {dfc : List String} {um : Option (List (String × String))}
    {cat : List (String × AttrSpec)} {attr : String} {props : AttrSpec}
    (hnd : (cat.map Prod.fst).Nodup) (hmem : (attr, props) ∈ cat) :
    (resolveLoop dfc um cat).1.lookup attr = resolveAttr dfc um attr props := by
  induction cat with
  | nil => simp at hmem
  | cons hd rest ih =>
    obtain ⟨a, p⟩ := hd
    simp only [List.map_cons, List.nodup_cons] at hnd
    rcases List.mem_cons.mp hmem with heq | hmem2
    · injection heq with h1 h2
      subst h1
      subst h2
      rw [resolveLoop]
      cases h : resolveAttr dfc um attr props with
      | some f => simp [List.lookup]
      | none =>
        simp only []
        have hsub : attr ∉ (resolveLoop dfc um rest).1.map Prod.fst := by
          intro hm
          have : attr ∈ (resolveLoop dfc um rest).2.2 := by
            rw [resolveLoop_present_eq]
            exact hm
          exact hnd.1 ((resolveLoop_mem_iff dfc um rest attr).mp (Or.inl this))
        exact lookup_eq_none_of_not_mem_keys hsub
    · have hane : a ≠ attr := by
        rintro rfl
        exact hnd.1 (List.mem_map_of_mem Prod.fst hmem2)
      rw [resolveLoop]
      cases h : resolveAttr dfc um a p with
      | some f =>
        have hba : (attr == a) = false := beq_eq_false_iff_ne.mpr (fun hx => hane hx.symm)
        simp only [List.lookup, hba]
        exact ih hnd.2 hmem2
      | none => exact ih hnd.2 hmem2

theorem classifyLoop_eq_find (name : String) (tbl : List (String × List String)) :
    classifyLoop name tbl =
      ((tbl.find? (fun p => p.2.any (fun k => strContains name k))).map
        Prod.fst).getD "Unclassified" := by
  induction tbl with
  | nil => rfl
  | cons hd rest ih =>
    obtain ⟨cat, kws⟩ := hd
    rw [classifyLoop, List.find?]
    cases h : kws.any (fun k => strContains name k) with
    | true => simp
    | false => simpa using ih

theorem classifyLoop_mem (name : String) (tbl : List (String × List String)) :
    classifyLoop name tbl ∈ "Unclassified" :: tbl.map Prod.fst := by
  induction tbl with
  | nil => simp [classifyLoop]
  | cons hd rest ih =>
    obtain ⟨cat, kws⟩ := hd
    rw [classifyLoop]
    cases h : kws.any (fun k => strContains name k) with
    | true => simp
    | false =>
      simp only [Bool.false_eq_true, if_false]
      rcases List.mem_cons.mp ih with h1 | h1
      · exact h1 ▸ List.mem_cons_self _ _
      · exact List.mem_cons_of_mem _ (List.mem_cons_of_mem _ h1)

theorem headerScan_eq_some {p : List Cell → Bool} {grid : List (List Cell)} {i : Nat}
    (h : headerScan p grid = some i) :
    i < grid.length ∧ p (grid.getD i []) = true ∧
      ∀ j, j < i → p (grid.getD j []) = false := by
  induction grid generalizing i with
  | nil => simp [headerScan] at h
  | cons r rs ih =>
    rw [headerScan] at h
    cases hp : p r with
    | true =>
      rw [hp] at h
      simp at h
      subst h
      exact ⟨Nat.succ_pos _, hp, fun j hj => absurd hj (Nat.not_lt_zero j)⟩
    | false =>
      rw [hp] at h
      simp only [Bool.false_eq_true, if_false, Option.map_eq_some'] at h
      obtain ⟨i2, hi2, rfl⟩ := h
      obtain ⟨hlt, hpi, hprev⟩ := ih hi2
      refine ⟨Nat.succ_lt_succ hlt, hpi, ?_⟩
      intro j hj
      cases j with
      | zero => exact hp
      | succ j2 => exact hprev j2 (Nat.lt_of_succ_lt_succ hj)

theorem headerScan_eq_none {p : List Cell → Bool} {grid : List (List Cell)}
    (h : headerScan p grid = none) :
    ∀ j, j < grid.length → p (grid.getD j []) = false := by
  induction grid with
  | nil => simp
  | cons r rs ih =>
    rw [headerScan] at h
    cases hp : p r with
    | true => rw [hp] at h; simp at h
    | false =>
      rw [hp] at h
      simp only [Bool.false_eq_true, if_false, Option.map_eq_none'] at h
      intro j hj
      cases j with
      | zero => exact hp
      | succ j2 => exact ih h j2 (Nat.lt_of_succ_lt_succ hj)

theorem contains_iff_mem {l : List String} {a : String} : l.contains a = true ↔ a ∈ l := by
  induction l with
  | nil => simp
  | cons x xs ih =>
    rw [List.contains_cons]
    constructor
    · intro h
      rcases Bool.or_eq_true_iff.mp h with h1 | h1
      · exact (eq_of_beq h1).symm ▸ List.mem_cons_self x xs
      · exact List.mem_cons_of_mem _ (ih.mp h1)
    · intro h
      rcases List.mem_cons.mp h with rfl | h1
      · simp
      · exact Bool.or_eq_true_iff.mpr (Or.inr (ih.mpr h1))

theorem fillnaCol_cols {t : Table} {c : String} (h : c ∈ t.cols) :
    (t.fillnaCol c).cols = t.cols := by
  rw [Table.fillnaCol]
  exact setCol_cols_of_mem h _

theorem fillnaCol_rows_length {t : Table} {c : String} (h : c ∈ t.cols) :
    (t.fillnaCol c).rows.length = t.rows.length := by
  rw [Table.fillnaCol]
  exact setCol_rows_length (by rw [List.length_map, getCol_length h])

theorem numToQ_fillCell (x : Cell) : numToQ (fillCell x) = numToQ x := by
  cases x <;> rfl

theorem fillnaCol_getCol_numToQ {t : Table} {c : String} (hc : c ∈ t.cols) (x : String) :
    ((t.fillnaCol c).getCol x).map numToQ = (t.getCol x).map numToQ := by
  by_cases hx : x = c
  · subst hx
    rw [Table.fillnaCol, getCol_setCol_self (by rw [List.length_map, getCol_length hc])]
    rw [List.map_map]
    have h1 : (numToQ ∘ fillCell) = numToQ := funext numToQ_fillCell
    rw [h1]
  · rw [Table.fillnaCol, getCol_setCol_ne hx (by rw [List.length_map, getCol_length hc])]

theorem fillnaCol_getCol_ne {t : Table} {c x : String} (hc : c ∈ t.cols) (hx : x ≠ c) :
    (t.fillnaCol c).getCol x = t.getCol x := by
  rw [Table.fillnaCol]
  exact getCol_setCol_ne hx (by rw [List.length_map, getCol_length hc])

theorem condFill_facts (t : Table) (d : String) :
    (if t.cols.contains d then t.fillnaCol d else t).cols = t.cols ∧
    (if t.cols.contains d then t.fillnaCol d else t).rows.length = t.rows.length ∧
    (∀ x, ((if t.cols.contains d then t.fillnaCol d else t).getCol x).map numToQ
      = (t.getCol x).map numToQ) ∧
    (∀ x, x ≠ d → (if t.cols.contains d then t.fillnaCol d else t).getCol x = t.getCol x) := by
  by_cases h : t.cols.contains d = true
  · have hmem : d ∈ t.cols := contains_iff_mem.mp h
    simp only [if_pos h]
    exact ⟨fillnaCol_cols hmem, fillnaCol_rows_length hmem,
      fillnaCol_getCol_numToQ hmem, fun x hx => fillnaCol_getCol_ne hmem hx⟩
  · have hnm : d ∉ t.cols := fun hm => h (contains_iff_mem.mpr hm)
    simp [h, hnm]

theorem cleanColumnsStep_some {t t2 : Table} {c : Option String}
    (h : cleanColumnsStep t c = some t2) :
    t2.cols = t.cols ∧ t2.rows.length = t.rows.length := by
  cases c with
  | none =>
    rw [cleanColumnsStep] at h
    cases h
    exact ⟨rfl, rfl⟩
  | some col =>
    rw [cleanColumnsStep] at h
    split at h
    case isTrue hmem =>
      split at h
      case isTrue herr => simp at h
      case isFalse herr =>
        cases h
        have hmem2 : col ∈ t.cols := contains_iff_mem.mp hmem
        refine ⟨setCol_cols_of_mem hmem2 _, setCol_rows_length ?_⟩
        rw [List.length_map, List.length_map, getCol_length hmem2]
    case isFalse hmem =>
      cases h
      exact ⟨rfl, rfl⟩

theorem cleanColumns_some {cs : List (Option String)} :
    ∀ {t t2 : Table}, cleanColumns t cs = some t2 →
      t2.cols = t.cols ∧ t2.rows.length = t.rows.length := by
  induction cs with
  | nil =>
    intro t t2 h
    rw [cleanColumns] at h
    cases h
    exact ⟨rfl, rfl⟩
  | cons c rest ih =>
    intro t t2 h
    rw [cleanColumns] at h
    cases hstep : cleanColumnsStep t c with
    | none => rw [hstep] at h; simp at h
    | some tm =>
      rw [hstep] at h
      obtain ⟨h1, h2⟩ := cleanColumnsStep_some hstep
      obtain ⟨h3, h4⟩ := ih h
      exact ⟨h3.trans h1, h4.trans h2⟩

theorem netAmounts_length {t : Table} {dco cco aco : Option String} {nets : List ℚ}
    (hd : ∀ d, dco = some d → d ∈ t.cols)
    (hc : ∀ c, cco = some c → c ∈ t.cols)
    (ha : ∀ a, aco = some a → a ∈ t.cols)
    (h : netAmounts t dco cco aco = some nets) :
    nets.length = t.rows.length := by
  cases dco with
  | some d =>
    cases cco with
    | some c =>
      have hx : netAmounts t (some d) (some c) aco
          = some (List.zipWith (fun x y => numToQ x - numToQ y) (t.getCol d) (t.getCol c)) := by
        cases aco <;> rfl
      rw [hx] at h
      injection h with h
      rw [← h, List.length_zipWith, getCol_length (hd d rfl), getCol_length (hc c rfl)]
      exact Nat.min_self _
    | none =>
      cases aco with
      | some a =>
        have hx : netAmounts t (some d) none (some a) = some ((t.getCol a).map numToQ) := rfl
        rw [hx] at h
        injection h with h
        rw [← h, List.length_map, getCol_length (ha a rfl)]
      | none =>
        have hx : netAmounts t (some d) none none = none := rfl
        rw [hx] at h
        simp at h
  | none =>
    cases aco with
    | some a =>
      cases cco with
      | some c =>
        have hx : netAmounts t none (some c) (some a) = some ((t.getCol a).map numToQ) := rfl
        rw [hx] at h
        injection h with h
        rw [← h, List.length_map, getCol_length (ha a rfl)]
      | none =>
        have hx : netAmounts t none none (some a) = some ((t.getCol a).map numToQ) := rfl
        rw [hx] at h
        injection h with h
        rw [← h, List.length_map, getCol_length (ha a rfl)]
    | none =>
      cases cco with
      | some c =>
        have hx : netAmounts t none (some c) none = none := rfl
        rw [hx] at h
        simp at h
      | none =>
        have hx : netAmounts t none none none = none := rfl
        rw [hx] at h
        simp at h

theorem mandatory_missing_nil (df : Table) (um : Option (List (String × String))) :
    mandatory_missing df um = [] := by
  rw [mandatory_missing, validate_and_map_attributes]
  rw [List.filter_eq_nil_iff]
  intro a ha
  have hmem : a ∈ REQUIRED_ATTRIBUTES.map Prod.fst :=
    (resolveLoop_mem_iff _ _ _ a).mp (Or.inr ha)
  have hall : ∀ x ∈ REQUIRED_ATTRIBUTES.map Prod.fst, mandFlag x = false := by decide
  simp [hall a hmem]

theorem analyze_gl_eq_numeric (df : Table) (um : Option (List (String × String))) :
    analyze_gl df um = analyzeNumeric (renameTable df) := by
  rw [analyze_gl]
  simp [mandatory_missing_nil df um, validate_and_map_attributes]

theorem optFill_facts (t : Table) (dco : Option String) :
    (optFill t dco).cols = t.cols ∧
    (optFill t dco).rows.length = t.rows.length ∧
    (∀ x, ((optFill t dco).getCol x).map numToQ = (t.getCol x).map numToQ) ∧
    (∀ x, (∀ d, dco = some d → x ≠ d) → (optFill t dco).getCol x = t.getCol x) := by
  cases dco with
  | none => exact ⟨rfl, rfl, fun x => rfl, fun x hx => rfl⟩
  | some d =>
    obtain ⟨h1, h2, h3, h4⟩ := condFill_facts t d
    exact ⟨h1, h2, h3, fun x hx => h4 x (hx d rfl)⟩

theorem firstPresent_mem {t : Table} {cands : List String} {c : String}
    (h : firstPresent t cands = some c) : c ∈ t.cols ∧ c ∈ cands :=
  ⟨contains_iff_mem.mp (List.find?_some h), List.mem_of_find?_eq_some h⟩

theorem analyzeNumeric_ok_inv {t0 : Table} {res : AnalyzeOk}
    (h : analyzeNumeric t0 = AnalysisResult.ok res) :
    ∃ df1 nets ac,
      cleanColumns t0 [firstPresent t0 possible_debit_cols,
        firstPresent t0 possible_credit_cols, firstPresent t0 possible_amount_cols]
        = some df1 ∧
      netAmounts df1 (firstPresent t0 possible_debit_cols)
        (firstPresent t0 possible_credit_cols) (firstPresent t0 possible_amount_cols)
        = some nets ∧
      firstPresent t0 possible_account_cols = some ac ∧
      buildResults (df1.setCol "net_amount" (nets.map Cell.num)) ac
        (firstPresent t0 possible_debit_cols) (firstPresent t0 possible_credit_cols)
        (firstPresent t0 possible_amount_cols) nets = AnalysisResult.ok res := by
  simp only [analyzeNumeric] at h
  cases hclean : cleanColumns t0 [firstPresent t0 possible_debit_cols,
      firstPresent t0 possible_credit_cols, firstPresent t0 possible_amount_cols] with
  | none =>
    rw [hclean] at h
    simp at h
  | some df1 =>
    rw [hclean] at h
    simp only [] at h
    cases hnet : netAmounts df1 (firstPresent t0 possible_debit_cols)
        (firstPresent t0 possible_credit_cols) (firstPresent t0 possible_amount_cols) with
    | none =>
      rw [hnet] at h
      simp at h
    | some nets =>
      rw [hnet] at h
      simp only [] at h
      cases hac : firstPresent t0 possible_account_cols with
      | none =>
        rw [hac] at h
        simp at h
      | some ac =>
        rw [hac] at h
        exact ⟨df1, nets, ac, rfl, hnet, rfl, h⟩

theorem buildResults_kpis {df2 : Table} {ac : String} {dco cco aco : Option String}
    {nets : List ℚ} {res : AnalyzeOk}
    (hb : buildResults df2 ac dco cco aco nets = AnalysisResult.ok res) :
    res.kpis = mkKpis (((df2.getCol ac).map classify_account).zip nets) ∧
    res.summary = mkSummary (((df2.getCol ac).map classify_account).zip nets) := by
  simp only [buildResults] at hb
  split at hb
  · injection hb with hb
    exact ⟨by rw [← hb], by rw [← hb]⟩
  · split at hb
    · split at hb
      · injection hb with hb
        exact ⟨by rw [← hb], by rw [← hb]⟩
      · simp at hb
    · simp at hb

theorem buildResults_table {df2 : Table} {ac : String} {dco cco aco : Option String}
    {nets : List ℚ} {res : AnalyzeOk}
    (hac : ac ∈ df2.cols)
    (hdne : ∀ d, dco = some d → d ≠ "account_category")
    (hcne : ∀ c, cco = some c → c ≠ "account_category")
    (hane : ∀ a, aco = some a → a ≠ "account_category")
    (hb : buildResults df2 ac dco cco aco nets = AnalysisResult.ok res) :
    res.table.cols = (df2.setCol "account_category"
        (((df2.getCol ac).map classify_account).map Cell.str)).cols ∧
    res.table.rows.length = df2.rows.length ∧
    res.table.getCol "account_category" = ((df2.getCol ac).map classify_account).map Cell.str ∧
    (∀ x, x ≠ "account_category" →
      (res.table.getCol x).map numToQ = (df2.getCol x).map numToQ) := by
  have hlen : (((df2.getCol ac).map classify_account).map Cell.str).length = df2.rows.length := by
    rw [List.length_map, List.length_map, getCol_length hac]
  simp only [buildResults] at hb
  obtain ⟨g1, g2, g3, g4⟩ := optFill_facts (df2.setCol "account_category"
      (((df2.getCol ac).map classify_account).map Cell.str)) dco
  obtain ⟨k1, k2, k3, k4⟩ := optFill_facts (optFill (df2.setCol "account_category"
      (((df2.getCol ac).map classify_account).map Cell.str)) dco) cco
  have hbase_rows : (df2.setCol "account_category"
      (((df2.getCol ac).map classify_account).map Cell.str)).rows.length = df2.rows.length :=
    setCol_rows_length hlen
  have hbase_cat : (df2.setCol "account_category"
      (((df2.getCol ac).map classify_account).map Cell.str)).getCol "account_category"
      = ((df2.getCol ac).map classify_account).map Cell.str :=
    getCol_setCol_self hlen
  have hbase_ne : ∀ x, x ≠ "account_category" →
      (df2.setCol "account_category"
        (((df2.getCol ac).map classify_account).map Cell.str)).getCol x = df2.getCol x :=
    fun x hx => getCol_setCol_ne hx hlen
  have ht5_cols := k1.trans g1
  have ht5_rows := k2.trans (g2.trans hbase_rows)
  have ht5_cat : (optFill (optFill (df2.setCol "account_category"
      (((df2.getCol ac).map classify_account).map Cell.str)) dco) cco).getCol "account_category"
      = ((df2.getCol ac).map classify_account).map Cell.str := by
    rw [k4 _ (fun c hcc => Ne.symm (hcne c hcc)), g4 _ (fun d hdd => Ne.symm (hdne d hdd)),
      hbase_cat]
  have ht5_num : ∀ x, x ≠ "account_category" →
      ((optFill (optFill (df2.setCol "account_category"
        (((df2.getCol ac).map classify_account).map Cell.str)) dco) cco).getCol x).map numToQ
      = (df2.getCol x).map numToQ := by
    intro x hx
    rw [k3, g3, hbase_ne x hx]
  split at hb
  · injection hb with hb
    rw [← hb]
    exact ⟨ht5_cols, ht5_rows, ht5_cat, ht5_num⟩
  · split at hb
    · split at hb
      · rename_i a hcont
        have hamem : a ∈ (optFill (optFill (df2.setCol "account_category"
            (((df2.getCol ac).map classify_account).map Cell.str)) dco) cco).cols :=
          contains_iff_mem.mp hcont
        have hanea : ("account_category" : String) ≠ a := Ne.symm (hane a rfl)
        injection hb with hb
        rw [← hb]
        refine ⟨(fillnaCol_cols hamem).trans ht5_cols,
          (fillnaCol_rows_length hamem).trans ht5_rows,
          (fillnaCol_getCol_ne hamem hanea).trans ht5_cat, ?_⟩
        intro x hx
        rw [fillnaCol_getCol_numToQ hamem, ht5_num x hx]
      · simp at hb
    · simp at hb

theorem analyze_ok_facts {df : Table} {um : Option (List (String × String))} {res : AnalyzeOk}
    (h : analyze_gl df um = AnalysisResult.ok res) :
    ∃ df1 nets ac,
      cleanColumns (renameTable df) [firstPresent (renameTable df) possible_debit_cols,
        firstPresent (renameTable df) possible_credit_cols,
        firstPresent (renameTable df) possible_amount_cols] = some df1 ∧
      netAmounts df1 (firstPresent (renameTable df) possible_debit_cols)
        (firstPresent (renameTable df) possible_credit_cols)
        (firstPresent (renameTable df) possible_amount_cols) = some nets ∧
      firstPresent (renameTable df) possible_account_cols = some ac ∧
      df1.cols = (renameTable df).cols ∧
      nets.length = df.rows.length ∧
      res.kpis = mkKpis ((((df1.setCol "net_amount" (nets.map Cell.num)).getCol ac).map
        classify_account).zip nets) ∧
      res.summary = mkSummary ((((df1.setCol "net_amount" (nets.map Cell.num)).getCol ac).map
        classify_account).zip nets) ∧
      res.table.getCol "account_category" = (((df1.setCol "net_amount"
        (nets.map Cell.num)).getCol ac).map classify_account).map Cell.str ∧
      (res.table.getCol "net_amount").map numToQ = nets ∧
      res.table.rows.length = df.rows.length ∧
      "net_amount" ∈ res.table.cols ∧
      "account_category" ∈ res.table.cols ∧
      (∀ x, x ≠ "account_category" → x ≠ "net_amount" →
        (res.table.getCol x).map numToQ = (df1.getCol x).map numToQ) := by
  have h2 : analyzeNumeric (renameTable df) = AnalysisResult.ok res :=
    (analyze_gl_eq_numeric df um).symm.trans h
  obtain ⟨df1, nets, ac, hclean, hnet, hacp, hbuild⟩ := analyzeNumeric_ok_inv h2
  obtain ⟨hcols1, hrows1⟩ := cleanColumns_some hclean
  have hrows0 : (renameTable df).rows.length = df.rows.length := rfl
  have hdmem : ∀ d, firstPresent (renameTable df) possible_debit_cols = some d →
      d ∈ df1.cols := by
    intro d hd
    rw [hcols1]
    exact (firstPresent_mem hd).1
  have hcmem : ∀ c, firstPresent (renameTable df) possible_credit_cols = some c →
      c ∈ df1.cols := by
    intro c hc
    rw [hcols1]
    exact (firstPresent_mem hc).1
  have hamem : ∀ a, firstPresent (renameTable df) possible_amount_cols = some a →
      a ∈ df1.cols := by
    intro a ha
    rw [hcols1]
    exact (firstPresent_mem ha).1
  have hnetlen : nets.length = df.rows.length :=
    (netAmounts_length hdmem hcmem hamem hnet).trans (hrows1.trans hrows0)
  have hnetlen1 : (nets.map Cell.num).length = df1.rows.length := by
    rw [List.length_map, hnetlen, ← hrows0, ← hrows1]
  have hacmem1 : ac ∈ df1.cols := by
    rw [hcols1]
    exact (firstPresent_mem hacp).1
  have hacmem2 : ac ∈ (df1.setCol "net_amount" (nets.map Cell.num)).cols :=
    mem_setCol_of_mem hacmem1 _ _
  have hdlists : ∀ x ∈ possible_debit_cols, x ≠ "account_category" ∧ x ≠ "net_amount" := by
    decide
  have hclists : ∀ x ∈ possible_credit_cols, x ≠ "account_category" ∧ x ≠ "net_amount" := by
    decide
  have halists : ∀ x ∈ possible_amount_cols, x ≠ "account_category" := by decide
  have hdne : ∀ d, firstPresent (renameTable df) possible_debit_cols = some d →
      d ≠ "account_category" :=
    fun d hd => (hdlists d (firstPresent_mem hd).2).1
  have hcne : ∀ c, firstPresent (renameTable df) possible_credit_cols = some c →
      c ≠ "account_category" :=
    fun c hc => (hclists c (firstPresent_mem hc).2).1
  have hane : ∀ a, firstPresent (renameTable df) possible_amount_cols = some a →
      a ≠ "account_category" :=
    fun a ha => halists a (firstPresent_mem ha).2
  obtain ⟨hkpi, hsum⟩ := buildResults_kpis hbuild
  obtain ⟨ht1, ht2, ht3, ht4⟩ := buildResults_table hacmem2 hdne hcne hane hbuild
  have hnetcol2 : (df1.setCol "net_amount" (nets.map Cell.num)).getCol "net_amount"
      = nets.map Cell.num := getCol_setCol_self hnetlen1
  have hrows2 : (df1.setCol "net_amount" (nets.map Cell.num)).rows.length = df.rows.length :=
    (setCol_rows_length hnetlen1).trans (hrows1.trans hrows0)
  have hnetne : ("net_amount" : String) ≠ "account_category" := by decide
  have hnetq : (res.table.getCol "net_amount").map numToQ = nets := by
    rw [ht4 "net_amount" hnetne, hnetcol2, List.map_map]
    have hid : (numToQ ∘ Cell.num) = id := funext (fun q => rfl)
    rw [hid, List.map_id]
  have hnm_mem : "net_amount" ∈ res.table.cols := by
    rw [ht1]
    exact mem_setCol_of_mem (mem_setCol_self df1 "net_amount" _) _ _
  have hcat_mem : "account_category" ∈ res.table.cols := by
    rw [ht1]
    exact mem_setCol_self _ _ _
  refine ⟨df1, nets, ac, hclean, hnet, hacp, hcols1, hnetlen, hkpi, hsum, ht3, hnetq,
    ht2.trans hrows2, hnm_mem, hcat_mem, ?_⟩
  intro x hx1 hx2
  rw [ht4 x hx1, getCol_setCol_ne hx2 hnetlen1]

theorem isMandatoryStop_buildResults (df2 : Table) (ac : String)
    (dco cco aco : Option String) (nets : List ℚ) :
    isMandatoryStop (buildResults df2 ac dco cco aco nets) = false := by
  simp only [buildResults]
  split
  · rfl
  · split
    · split
      · rfl
      · rfl
    · rfl

theorem isMandatoryStop_analyzeNumeric (t0 : Table) :
    isMandatoryStop (analyzeNumeric t0) = false := by
  simp only [analyzeNumeric]
  split
  · rfl
  · split
    · rfl
    · split
      · rfl
      · exact isMandatoryStop_buildResults _ _ _ _ _ _

/-- C1 counterexample: with columns `debit, debit_gbp` and the user
override `debit_gbp ↦ debit`, the resolver maps `debit_gbp` to the
column `debit_gbp` via the direct name match — not to `debit` as the
claim asserts. -/
theorem C1_counterexample :
    ((validate_and_map_attributes tblDirect
      (some [("debit_gbp", "debit")])).2.1).lookup "debit_gbp" = some "debit_gbp" := by
  with_unfolding_all decide

/-- C1 (amended): a user override naming a real column decides an
attribute's mapping ahead of the synonym scan, but only when the
attribute's own canonical name is not itself among the lower-cased,
stripped column names — a direct match takes precedence over the
override. -/
theorem C1_override_beats_synonyms (df : Table) (um : List (String × String))
    (attr : String) (props : AttrSpec) (c : String)
    (hcat : (attr, props) ∈ REQUIRED_ATTRIBUTES)
    (hdirect : attr ∉ dfColumnsOf df)
    (hov : um.lookup attr = some c)
    (hcol : lowerStr c ∈ dfColumnsOf df) :
    ((validate_and_map_attributes df (some um)).2.1).lookup attr = some (lowerStr c) := by
  have hnd : (REQUIRED_ATTRIBUTES.map Prod.fst).Nodup := by decide
  show (resolveLoop (dfColumnsOf df) (some um) REQUIRED_ATTRIBUTES).1.lookup attr = _
  rw [resolveLoop_lookup hnd hcat]
  simp only [resolveAttr, if_neg hdirect, hov, if_pos hcol]

/-- C1 witness: with the single column `debit` (no direct match for
`debit_gbp`) the override `debit_gbp ↦ debit` wins, although the synonym
list of `debit_gbp` also matches the `debit` column. -/
theorem C1_witness :
    ((validate_and_map_attributes tblOverride
      (some [("debit_gbp", "debit")])).2.1).lookup "debit_gbp" = some "debit" := by
  have h := C1_override_beats_synonyms tblOverride [("debit_gbp", "debit")]
    "debit_gbp"
    ⟨false, ["debit_gbp", "debit", "dr", "debit_amount", "debits",
      "debit_value", "debit_in_gbp", "debit_local", "debit_usd", "debit_($)"]⟩
    "debit" (by with_unfolding_all decide) (by with_unfolding_all decide)
    (by with_unfolding_all decide) (by with_unfolding_all decide)
  rwa [show lowerStr "debit" = "debit" from by with_unfolding_all decide] at h

/-- C2 counterexample: on the input `"sal\tes"` (a tab inside a Revenue
keyword) the classifier keeps the tab — only spaces are removed — and
returns Unclassified, while the claimed strip-all-whitespace behaviour
would normalize to `"sales"` and return Revenue. -/
theorem C2_counterexample :
    classify_account (Cell.str "sal\tes") = "Unclassified" ∧
    classifyClaimC2 (Cell.str "sal\tes") = "Revenue" := by
  constructor
  · with_unfolding_all decide
  · with_unfolding_all decide

/-- C2 (amended): the classifier is total with values among the fixed
categories plus Unclassified; null and empty inputs give Unclassified;
otherwise the text is lower-cased, its space characters (U+0020 only —
other whitespace is kept) removed, and the first category in the order
Revenue, COGS, OPEX, Other Income, Other Expense with a keyword that is
a substring of the normalized text wins, defaulting to Unclassified. -/
theorem C2_classifier_total :
    classify_account Cell.null = "Unclassified" ∧
    classify_account (Cell.str "") = "Unclassified" ∧
    (∀ c : Cell, classify_account c = classifySpecAmended c) ∧
    (∀ c : Cell, classify_account c ∈ "Unclassified" :: account_mapping.map Prod.fst) := by
  refine ⟨rfl, by with_unfolding_all decide, ?_, ?_⟩
  · intro c
    cases c with
    | null => rfl
    | str s => exact classifyLoop_eq_find _ _
    | num q => exact classifyLoop_eq_find _ _
  · intro c
    cases c with
    | null => exact List.mem_cons_self _ _
    | str s => exact classifyLoop_mem _ _
    | num q => exact classifyLoop_mem _ _

/-- C3 counterexample: `credit_gbp` is unresolved for a table with
columns `account, amount`, yet analysis succeeds and produces a full KPI
mapping — no mandatory-attribute failure occurs and KPIs are returned. -/
theorem C3_counterexample :
    "credit_gbp" ∈ (validate_and_map_attributes tblAmountOnly none).2.2.1 ∧
    kpisOf (analyze_gl tblAmountOnly none) =
      some [("Revenue", 100), ("COGS", 0), ("OPEX", 0), ("Gross Profit", 100),
        ("EBITDA", 100), ("Other Income", 0), ("Other Expense", 0), ("Net Profit", 100)] := by
  constructor
  · with_unfolding_all decide
  · with_unfolding_all decide

/-- C3 (amended): no attribute of the catalog is flagged mandatory, so
the mandatory-missing list is always empty and analysis never takes the
mandatory-stop path, whatever attributes — `credit_gbp` included —
remain unresolved. -/
theorem C3_no_mandatory_stop (df : Table) (um : Option (List (String × String))) :
    mandatory_missing df um = [] ∧
    isMandatoryStop (analyze_gl df um) = false := by
  refine ⟨mandatory_missing_nil df um, ?_⟩
  rw [analyze_gl_eq_numeric]
  exact isMandatoryStop_analyzeNumeric _

/-- C4 counterexample: a lone `TOTAL ASSETS` row with debit 100 is not
dropped — it appears as the Unclassified group, with value 100, in both
the category summary and the trial balance. -/
theorem C4_counterexample :
    summaryOf (analyze_gl tblTotalRow none) = some [("Unclassified", 100)] ∧
    tbOf (analyze_gl tblTotalRow none) =
      some (TrialBalance.debitCredit [("Unclassified", 100, 0, 100)]) := by
  constructor
  · with_unfolding_all decide
  · with_unfolding_all decide

/-- C4 (amended): normalization drops no rows — subtotal-looking and
null accounts are kept and classified Unclassified — so a successful
analysis preserves the row count, and the category summary sums to
exactly the `net_amount` column over all rows (a `TOTAL ASSETS` row
therefore still contributes to the summary and trial balance, under
Unclassified, though to no named KPI category). -/
theorem C4_no_rows_dropped (df : Table) (um : Option (List (String × String)))
    (res : AnalyzeOk) (h : analyze_gl df um = AnalysisResult.ok res) :
    res.table.rows.length = df.rows.length ∧
    (res.summary.map Prod.snd).sum = ((res.table.getCol "net_amount").map numToQ).sum := by
  obtain ⟨df1, nets, ac, hclean, hnet, hacp, hcols1, hnetlen, hkpi, hsum, hcatcol, hnetq,
    hrows, hnm, hcm, hpres⟩ := analyze_ok_facts h
  refine ⟨hrows, ?_⟩
  rw [hsum, mkSummary_sum, hnetq]
  have h1 : (res.table.getCol "account_category").length = res.table.rows.length :=
    getCol_length hcm
  rw [hcatcol, List.length_map] at h1
  have hcatlen : (((df1.setCol "net_amount" (nets.map Cell.num)).getCol ac).map
      classify_account).length = nets.length := by
    rw [h1, hrows, hnetlen]
  rw [List.map_snd_zip _ _ (le_of_eq hcatlen.symm)]

/-- C4 witness: the amended theorem applied to the `TOTAL ASSETS`
table. -/
theorem C4_witness :
    (okRes (analyze_gl tblTotalRow none)).table.rows.length = tblTotalRow.rows.length ∧
    ((okRes (analyze_gl tblTotalRow none)).summary.map Prod.snd).sum =
      (((okRes (analyze_gl tblTotalRow none)).table.getCol "net_amount").map numToQ).sum :=
  C4_no_rows_dropped tblTotalRow none (okRes (analyze_gl tblTotalRow none))
    (by with_unfolding_all decide)

/-- C5: header location scans top to bottom and returns the index of the
first row whose vocabulary match count reaches the threshold of 3, and
when no row ever reaches it the scan reports failure (`none`) rather than
defaulting to row 0. -/
theorem C5_header_detection (grid : List (List Cell)) :
    (∀ i, header_row_idx grid = some i →
      i < grid.length ∧ 3 ≤ rowMatchCount (grid.getD i []) ∧
        ∀ j, j < i → rowMatchCount (grid.getD j []) < 3) ∧
    (header_row_idx grid = none →
      ∀ j, j < grid.length → rowMatchCount (grid.getD j []) < 3) := by
  constructor
  · intro i h
    obtain ⟨h1, h2, h3⟩ := headerScan_eq_some h
    simp only [decide_eq_true_eq] at h2
    refine ⟨h1, h2, fun j hj => ?_⟩
    have h4 := h3 j hj
    simp only [decide_eq_false_iff_not] at h4
    omega
  · intro h j hj
    have h4 := headerScan_eq_none h j hj
    simp only [decide_eq_false_iff_not] at h4
    omega

/-- C5 witness: on a grid whose second row holds four header terms, the
scan returns index 1, that row matches at least 3 vocabulary terms, and
every earlier row is below the threshold. -/
theorem C5_witness :
    1 < gridHeader.length ∧ 3 ≤ rowMatchCount (gridHeader.getD 1 []) ∧
      ∀ j, j < 1 → rowMatchCount (gridHeader.getD j []) < 3 :=
  (C5_header_detection gridHeader).1 1 (by with_unfolding_all decide)

/-- C6: in every successful analysis the `net_amount` column equals
debit minus credit (nulls as zero) when both a debit and a credit column
were identified, and otherwise the identified amount column's values;
the identification is fixed once per pass, so the two modes are mutually
exclusive within one analysis. -/
theorem C6_net_amount_identity (df : Table) (um : Option (List (String × String)))
    (res : AnalyzeOk) (h : analyze_gl df um = AnalysisResult.ok res) :
    (∀ d c, firstPresent (renameTable df) possible_debit_cols = some d →
      firstPresent (renameTable df) possible_credit_cols = some c →
      (res.table.getCol "net_amount").map numToQ =
        List.zipWith (fun x y => x - y) ((res.table.getCol d).map numToQ)
          ((res.table.getCol c).map numToQ)) ∧
    (∀ a, (firstPresent (renameTable df) possible_debit_cols = none ∨
        firstPresent (renameTable df) possible_credit_cols = none) →
      firstPresent (renameTable df) possible_amount_cols = some a →
      (res.table.getCol "net_amount").map numToQ = (res.table.getCol a).map numToQ) := by
  obtain ⟨df1, nets, ac, hclean, hnet, hacp, hcols1, hnetlen, hkpi, hsum, hcatcol, hnetq,
    hrows, hnm, hcm, hpres⟩ := analyze_ok_facts h
  have hdlists : ∀ x ∈ possible_debit_cols, x ≠ "account_category" ∧ x ≠ "net_amount" := by
    decide
  have hclists : ∀ x ∈ possible_credit_cols, x ≠ "account_category" ∧ x ≠ "net_amount" := by
    decide
  have halists : ∀ x ∈ possible_amount_cols, x ≠ "account_category" := by decide
  constructor
  · intro d c hd hc
    rw [hd, hc] at hnet
    have h6 : List.zipWith (fun x y => numToQ x - numToQ y)
        (df1.getCol d) (df1.getCol c) = nets := by
      cases hA : firstPresent (renameTable df) possible_amount_cols with
      | some a =>
        rw [hA] at hnet
        exact Option.some.inj hnet
      | none =>
        rw [hA] at hnet
        exact Option.some.inj hnet
    have hdn := hdlists d (firstPresent_mem hd).2
    have hcn := hclists c (firstPresent_mem hc).2
    rw [hnetq, hpres d hdn.1 hdn.2, hpres c hcn.1 hcn.2]
    simp only [List.zipWith_map]
    exact h6.symm
  · intro a hor ha
    have h6 : (df1.getCol a).map numToQ = nets := by
      rcases hor with hdn | hcn
      · rw [hdn, ha] at hnet
        cases hC : firstPresent (renameTable df) possible_credit_cols with
        | some c =>
          rw [hC] at hnet
          exact Option.some.inj hnet
        | none =>
          rw [hC] at hnet
          exact Option.some.inj hnet
      · rw [hcn, ha] at hnet
        cases hD : firstPresent (renameTable df) possible_debit_cols with
        | some d =>
          rw [hD] at hnet
          exact Option.some.inj hnet
        | none =>
          rw [hD] at hnet
          exact Option.some.inj hnet
    by_cases hana : a = "net_amount"
    · rw [hana]
    · rw [hnetq, hpres a (halists a (firstPresent_mem ha).2) hana]
      exact h6.symm

set_option maxRecDepth 4000 in
/-- C6 witness: the identity applied to a two-row debit/credit ledger. -/
theorem C6_witness :
    ((okRes (analyze_gl tblLedger none)).table.getCol "net_amount").map numToQ =
      List.zipWith (fun x y => x - y)
        (((okRes (analyze_gl tblLedger none)).table.getCol "debit").map numToQ)
        (((okRes (analyze_gl tblLedger none)).table.getCol "credit").map numToQ) :=
  (C6_net_amount_identity tblLedger none (okRes (analyze_gl tblLedger none))
    (by with_unfolding_all decide)).1 "debit" "credit"
    (by with_unfolding_all decide) (by with_unfolding_all decide)

/-- C7: every successful analysis produces exactly the KPI mapping whose
base entries are the per-category sums of `net_amount` over the rows as
classified, with Gross Profit = Revenue − COGS, EBITDA = Gross Profit −
OPEX, and Net Profit = EBITDA + Other Income − Other Expense. -/
theorem C7_kpi_identities (df : Table) (um : Option (List (String × String)))
    (res : AnalyzeOk) (h : analyze_gl df um = AnalysisResult.ok res) :
    res.kpis = [
      ("Revenue", catNetSum (catPairsOf res.table) "Revenue"),
      ("COGS", catNetSum (catPairsOf res.table) "COGS"),
      ("OPEX", catNetSum (catPairsOf res.table) "OPEX"),
      ("Gross Profit",
        catNetSum (catPairsOf res.table) "Revenue" - catNetSum (catPairsOf res.table) "COGS"),
      ("EBITDA",
        catNetSum (catPairsOf res.table) "Revenue" - catNetSum (catPairsOf res.table) "COGS"
          - catNetSum (catPairsOf res.table) "OPEX"),
      ("Other Income", catNetSum (catPairsOf res.table) "Other Income"),
      ("Other Expense", catNetSum (catPairsOf res.table) "Other Expense"),
      ("Net Profit",
        catNetSum (catPairsOf res.table) "Revenue" - catNetSum (catPairsOf res.table) "COGS"
          - catNetSum (catPairsOf res.table) "OPEX"
          + catNetSum (catPairsOf res.table) "Other Income"
          - catNetSum (catPairsOf res.table) "Other Expense")] := by
  obtain ⟨df1, nets, ac, hclean, hnet, hacp, hcols1, hnetlen, hkpi, hsum, hcatcol, hnetq,
    hrows, hnm, hcm, hpres⟩ := analyze_ok_facts h
  have hpairs : catPairsOf res.table =
      (((df1.setCol "net_amount" (nets.map Cell.num)).getCol ac).map classify_account).zip
        nets := by
    rw [catPairsOf, hcatcol, hnetq, List.map_map]
    have hid : (cellCatStr ∘ Cell.str) = id := funext (fun s => rfl)
    rw [hid, List.map_id]
  rw [hkpi, hpairs]
  rfl

set_option maxRecDepth 4000 in
/-- C7 witness: the identities applied to a two-row debit/credit
ledger. -/
theorem C7_witness :
    (okRes (analyze_gl tblLedger none)).kpis = [
      ("Revenue", catNetSum (catPairsOf (okRes (analyze_gl tblLedger none)).table) "Revenue"),
      ("COGS", catNetSum (catPairsOf (okRes (analyze_gl tblLedger none)).table) "COGS"),
      ("OPEX", catNetSum (catPairsOf (okRes (analyze_gl tblLedger none)).table) "OPEX"),
      ("Gross Profit",
        catNetSum (catPairsOf (okRes (analyze_gl tblLedger none)).table) "Revenue"
          - catNetSum (catPairsOf (okRes (analyze_gl tblLedger none)).table) "COGS"),
      ("EBITDA",
        catNetSum (catPairsOf (okRes (analyze_gl tblLedger none)).table) "Revenue"
          - catNetSum (catPairsOf (okRes (analyze_gl tblLedger none)).table) "COGS"
          - catNetSum (catPairsOf (okRes (analyze_gl tblLedger none)).table) "OPEX"),
      ("Other Income",
        catNetSum (catPairsOf (okRes (analyze_gl tblLedger none)).table) "Other Income"),
      ("Other Expense",
        catNetSum (catPairsOf (okRes (analyze_gl tblLedger none)).table) "Other Expense"),
      ("Net Profit",
        catNetSum (catPairsOf (okRes (analyze_gl tblLedger none)).table) "Revenue"
          - catNetSum (catPairsOf (okRes (analyze_gl tblLedger none)).table) "COGS"
          - catNetSum (catPairsOf (okRes (analyze_gl tblLedger none)).table) "OPEX"
          + catNetSum (catPairsOf (okRes (analyze_gl tblLedger none)).table) "Other Income"
          - catNetSum (catPairsOf (okRes (analyze_gl tblLedger none)).table) "Other Expense")] :=
  C7_kpi_identities tblLedger none (okRes (analyze_gl tblLedger none))
    (by with_unfolding_all decide)

/-- C8: for every table and override mapping, the present and missing
sets returned by resolution partition the catalog key set, and present
is exactly the key list of the returned column mapping. -/
theorem C8_partition (df : Table) (um : Option (List (String × String))) :
    (∀ a, (a ∈ (validate_and_map_attributes df um).2.2.2 ∨
        a ∈ (validate_and_map_attributes df um).2.2.1) ↔
      a ∈ REQUIRED_ATTRIBUTES.map Prod.fst) ∧
    (∀ a, a ∈ (validate_and_map_attributes df um).2.2.2 →
      a ∉ (validate_and_map_attributes df um).2.2.1) ∧
    (validate_and_map_attributes df um).2.2.2 =
      (validate_and_map_attributes df um).2.1.map Prod.fst := by
  have hnd : (REQUIRED_ATTRIBUTES.map Prod.fst).Nodup := by decide
  exact ⟨fun a => resolveLoop_mem_iff _ _ _ a,
    fun a => resolveLoop_disjoint hnd a,
    resolveLoop_present_eq _ _ _⟩

/-- C8 witness: the partition property instantiated at the attribute
`posted_dt` on a one-column table. -/
theorem C8_witness :
    "posted_dt" ∈ (validate_and_map_attributes tblOverride none).2.2.2 ∨
    "posted_dt" ∈ (validate_and_map_attributes tblOverride none).2.2.1 :=
  ((C8_partition tblOverride none).1 "posted_dt").mpr (by with_unfolding_all decide)

/-- C9 counterexample: a call to the resolver leaves the caller's table
with its `debit_(gbp)` column renamed to `debit_gbp` — the table is not
returned with its original column names. -/
theorem C9_counterexample :
    (validate_and_map_attributes tblParen none).1.cols = ["debit_gbp", "credit"] ∧
    tblParen.cols = ["debit_(gbp)", "credit"] := by
  constructor
  · with_unfolding_all decide
  · with_unfolding_all decide

/-- C9 (amended): the core mutates the caller's table rather than
preserving it — resolution renames columns according to
`CUSTOM_MAPPING`, and a successful analysis leaves the table with added
`net_amount` and `account_category` columns (and numerically coerced
amount columns). -/
theorem C9_mutates_table (df : Table) (um : Option (List (String × String))) :
    (validate_and_map_attributes df um).1.cols = df.cols.map renameCol ∧
    ∀ t, okTableOf (analyze_gl df um) = some t →
      "net_amount" ∈ t.cols ∧ "account_category" ∈ t.cols := by
  refine ⟨rfl, fun t ht => ?_⟩
  cases hres : analyze_gl df um with
  | ok r =>
    rw [hres] at ht
    simp only [okTableOf] at ht
    obtain ⟨df1, nets, ac, hclean, hnet, hacp, hcols1, hnetlen, hkpi, hsum, hcatcol, hnetq,
      hrows, hnm, hcm, hpres⟩ := analyze_ok_facts hres
    injection ht with ht
    rw [← ht]
    exact ⟨hnm, hcm⟩
  | mandatoryStop t2 =>
    rw [hres] at ht
    simp [okTableOf] at ht
  | noAmountCols t2 =>
    rw [hres] at ht
    simp [okTableOf] at ht
  | exn =>
    rw [hres] at ht
    simp [okTableOf] at ht
  | okNoTB t2 k sm =>
    rw [hres] at ht
    simp [okTableOf] at ht

/-- C9 witness: after a successful analysis of the `TOTAL ASSETS` table
the returned (mutated) table carries the added columns. -/
theorem C9_witness :
    "net_amount" ∈ ((okTableOf (analyze_gl tblTotalRow none)).getD ⟨[], []⟩).cols ∧
    "account_category" ∈ ((okTableOf (analyze_gl tblTotalRow none)).getD ⟨[], []⟩).cols :=
  (C9_mutates_table tblTotalRow none).2
    ((okTableOf (analyze_gl tblTotalRow none)).getD ⟨[], []⟩)
    (by with_unfolding_all decide)

/-- C10: the entire analysis outcome — net amounts, KPI mapping,
category summary, trial balance, and even the failure mode — is the same
for every user-override mapping (the numeric path reads only the table's
own column names, and no attribute is mandatory). -/
theorem C10_override_independent (df : Table)
    (um1 um2 : Option (List (String × String))) :
    analyze_gl df um1 = analyze_gl df um2 := by
  rw [analyze_gl_eq_numeric df um1, analyze_gl_eq_numeric df um2]

end GLApp

